import Mathlib

/-!
Shallow embedding of the idle-game core (`GameStateManager` and its `GameState`
data model from `src/src/editorListener.ts`) and proofs about its operations.

Modelling conventions:
* JavaScript numbers that the code keeps integral (levels, experience, stats,
  upgrade costs, discrete currency, counters, encounter health) are `Int`;
  the continuous currency `linesOfCode` and the `totalLinesGenerated` counter,
  which receive fractional increments, are `ℚ`.  The decimal literals of the
  source (`0.1`, `0.2`, `1.5`) are the exact rationals `1/10`, `2/10`, `3/2`.
* `Math.random()`-driven choices are passed in explicitly: the per-tick spawn
  roll as a `Bool`, the encounter-archetype pick as a `Fin 5`, the keystroke
  bonus roll as a `Bool`, and the file-save bonus roll as a `Fin 10`.
* Persistence and notifications are side effects that do not change the
  in-memory state; the blob a tick persists is modelled separately
  (`updateGameStateSaved`).
-/

/-- `Bug.reward` from the source (`linesOfCode`, `bugFragments`, `experience`). -/
structure BugReward where
  linesOfCode : Int
  bugFragments : Int
  experience : Int
  deriving DecidableEq

/-- The `Bug['type']` union of the source. -/
inductive BugType where
  | nullPointerException
  | memoryLeak
  | infiniteLoop
  | syntaxError
  | runtimeError
  deriving DecidableEq

/-- The `Bug` interface of the source. -/
structure Bug where
  name : String
  type : BugType
  health : Int
  maxHealth : Int
  algorithm : Int
  iteration : Int
  reward : BugReward
  deriving DecidableEq

/-- `GameState.character`. -/
structure CharacterInfo where
  name : String
  level : Int
  experience : Int
  experienceToNext : Int
  deriving DecidableEq

/-- `GameState.resources`: the continuous currency `linesOfCode` and the
discrete currency `bugFragments`. -/
structure Resources where
  linesOfCode : ℚ
  bugFragments : Int
  deriving DecidableEq

/-- `GameState.stats`: production (`handSpeed`), offense (`algorithm`) and
defense-equivalent (`iteration`). -/
structure Stats where
  handSpeed : Int
  algorithm : Int
  iteration : Int
  deriving DecidableEq

/-- `GameState.upgradeCosts`, one cost per stat. -/
structure UpgradeCosts where
  handSpeed : Int
  algorithm : Int
  iteration : Int
  deriving DecidableEq

/-- One equipment slot: `{ level, owned }`. -/
structure EquipmentItem where
  level : Int
  owned : Bool
  deriving DecidableEq

/-- `GameState.equipment`, the four named slots of the source. -/
structure Equipment where
  keyboard : EquipmentItem
  ideExtension : EquipmentItem
  debugTool : EquipmentItem
  coffeeMachine : EquipmentItem
  deriving DecidableEq

/-- `GameState.statistics`. -/
structure GameStatistics where
  totalLinesGenerated : ℚ
  totalBugsDefeated : Int
  totalPlayTime : Int
  keystrokes : Int
  filesOpened : Int
  filesSaved : Int
  deriving DecidableEq

/-- `GameState.battle`: the single encounter slot and the in-battle flag. -/
structure BattleState where
  currentBug : Option Bug
  isInBattle : Bool
  deriving DecidableEq

/-- `GameState.settings`. -/
structure GameSettings where
  autoSave : Bool
  showNotifications : Bool
  deriving DecidableEq

/-- The full `GameState` of the source. -/
structure GameState where
  character : CharacterInfo
  resources : Resources
  stats : Stats
  upgradeCosts : UpgradeCosts
  equipment : Equipment
  statistics : GameStatistics
  battle : BattleState
  settings : GameSettings
  deriving DecidableEq

/-- The three upgradeable stat keys (`'handSpeed' | 'algorithm' | 'iteration'`). -/
inductive StatKey where
  | handSpeed
  | algorithm
  | iteration
  deriving DecidableEq

/-- `this.gameState.stats[upgradeType]` as a read. -/
def Stats.get (s : Stats) : StatKey → Int
  | .handSpeed => s.handSpeed
  | .algorithm => s.algorithm
  | .iteration => s.iteration

/-- `this.gameState.stats[upgradeType] = v` as an update. -/
def Stats.set (s : Stats) : StatKey → Int → Stats
  | .handSpeed, v => { s with handSpeed := v }
  | .algorithm, v => { s with algorithm := v }
  | .iteration, v => { s with iteration := v }

/-- `this.gameState.upgradeCosts[upgradeType]` as a read. -/
def UpgradeCosts.get (c : UpgradeCosts) : StatKey → Int
  | .handSpeed => c.handSpeed
  | .algorithm => c.algorithm
  | .iteration => c.iteration

/-- `this.gameState.upgradeCosts[upgradeType] = v` as an update. -/
def UpgradeCosts.set (c : UpgradeCosts) : StatKey → Int → UpgradeCosts
  | .handSpeed, v => { c with handSpeed := v }
  | .algorithm, v => { c with algorithm := v }
  | .iteration, v => { c with iteration := v }

/-- `GameStateManager.createDefaultGameState`. -/
def createDefaultGameState : GameState where
  character := { name := "代码勇者", level := 1, experience := 0, experienceToNext := 100 }
  resources := { linesOfCode := 0, bugFragments := 0 }
  stats := { handSpeed := 1, algorithm := 5, iteration := 3 }
  upgradeCosts := { handSpeed := 50, algorithm := 30, iteration := 40 }
  equipment :=
    { keyboard := { level := 1, owned := false }
      ideExtension := { level := 1, owned := false }
      debugTool := { level := 1, owned := false }
      coffeeMachine := { level := 1, owned := false } }
  statistics :=
    { totalLinesGenerated := 0, totalBugsDefeated := 0, totalPlayTime := 0
      keystrokes := 0, filesOpened := 0, filesSaved := 0 }
  battle := { currentBug := none, isInBattle := false }
  settings := { autoSave := true, showNotifications := true }

/-- `GameStateManager.calculateLocPerSecond`. -/
def calculateLocPerSecond (st : GameState) : ℚ :=
  let baseRate : ℚ := (st.stats.handSpeed : ℚ)
  let baseRate : ℚ :=
    if st.equipment.ideExtension.owned then
      baseRate * (1 + (st.equipment.ideExtension.level : ℚ) * (1/10))
    else baseRate
  baseRate

/-- `GameStateManager.getBugDisplayName`. -/
def getBugDisplayName : BugType → String
  | .nullPointerException => "空指针异常怪"
  | .memoryLeak => "内存泄漏虫"
  | .infiniteLoop => "死循环魔"
  | .syntaxError => "语法错误精"
  | .runtimeError => "运行时异常兽"

/-- `GameStateManager.createBug`. -/
def createBug (type : BugType) (st : GameState) : Bug :=
  let baseHealth := 10 + st.character.level * 5
  let baseAlgorithm := 5 + st.character.level * 2
  let baseReward := max 1 (Int.floor ((st.character.level : ℚ) / 2))
  { name := getBugDisplayName type
    type := type
    health := baseHealth
    maxHealth := baseHealth
    algorithm := baseAlgorithm
    iteration := Int.floor ((baseAlgorithm : ℚ) * (2/10))
    reward :=
      { linesOfCode := baseReward * 10
        bugFragments := baseReward
        experience := baseReward * 5 } }

/-- The source's `bugTypes` array in `spawnRandomBug`, indexed by the random draw
`Math.floor(Math.random() * bugTypes.length)`. -/
def bugTypeOf (i : Fin 5) : BugType :=
  match i.val with
  | 0 => .nullPointerException
  | 1 => .memoryLeak
  | 2 => .infiniteLoop
  | 3 => .syntaxError
  | _ => .runtimeError

/-- `GameStateManager.spawnRandomBug`; `choice` stands for the uniform draw over
the `bugTypes` array. -/
def spawnRandomBug (choice : Fin 5) (st : GameState) : GameState :=
  let bug := createBug (bugTypeOf choice) st
  { st with battle := { currentBug := some bug, isInBattle := true } }

/-- `GameStateManager.defeatBug`: grant the reward bundle, count the kill and
clear the encounter slot.  `bug` is the (already damaged) current bug. -/
def defeatBug (bug : Bug) (st : GameState) : GameState :=
  let st := { st with resources :=
    { st.resources with linesOfCode := st.resources.linesOfCode + (bug.reward.linesOfCode : ℚ) } }
  let fragmentBonus : Int :=
    Int.floor (((bug.reward.bugFragments * st.stats.iteration : Int) : ℚ) * (1/10))
  let totalFragments : Int := bug.reward.bugFragments + fragmentBonus
  let st := { st with resources :=
    { st.resources with bugFragments := st.resources.bugFragments + totalFragments } }
  let st := { st with character :=
    { st.character with experience := st.character.experience + bug.reward.experience } }
  let st := { st with statistics :=
    { st.statistics with totalBugsDefeated := st.statistics.totalBugsDefeated + 1 } }
  { st with battle := { currentBug := none, isInBattle := false } }

/-- `GameStateManager.processBattle`: one combat-resolution step.  Returns the
state unchanged unless the in-battle flag is set and the encounter slot holds a
bug (the source's early return). -/
def processBattle (st : GameState) : GameState :=
  match st.battle.isInBattle, st.battle.currentBug with
  | true, some bug =>
      let damage := max 1 (st.stats.algorithm - bug.iteration)
      let bug := { bug with health := bug.health - damage }
      if bug.health ≤ 0 then defeatBug bug st
      else { st with battle := { st.battle with currentBug := some bug } }
  | _, _ => st

/-- `GameStateManager.calculateExperienceForNextLevel`. -/
def calculateExperienceForNextLevel (st : GameState) : Int :=
  100 + (st.character.level - 1) * 50

/-- One iteration of the `while` body of `GameStateManager.checkLevelUp`:
subtract the threshold, increment the level, recompute the threshold from the
new level, and grant the flat stat increases. -/
def levelUpStep (st : GameState) : GameState :=
  let st := { st with character :=
    { st.character with
        experience := st.character.experience - st.character.experienceToNext
        level := st.character.level + 1 } }
  let st := { st with character :=
    { st.character with experienceToNext := calculateExperienceForNextLevel st } }
  { st with stats :=
    { st.stats with
        handSpeed := st.stats.handSpeed + 1
        algorithm := st.stats.algorithm + 2
        iteration := st.stats.iteration + 1 } }

/-- The `while (experience >= experienceToNext)` loop of
`GameStateManager.checkLevelUp`, with an explicit iteration bound.  Whenever
every threshold encountered is positive, each iteration lowers the (then
non-negative) experience by at least one, so the bound chosen in
`checkLevelUp` is never exhausted on such states and the function computes
exactly what the source loop computes. -/
def checkLevelUpGo : Nat → GameState → GameState
  | 0, st => st
  | fuel + 1, st =>
      if st.character.experienceToNext ≤ st.character.experience then
        checkLevelUpGo fuel (levelUpStep st)
      else st

/-- `GameStateManager.checkLevelUp`. -/
def checkLevelUp (st : GameState) : GameState :=
  checkLevelUpGo (st.character.experience.toNat + 1) st

/-- `GameStateManager.buyUpgrade`.  The returned `Bool` is the source's return
value; the returned state is the (possibly unchanged) game state. -/
def buyUpgrade (upgradeType : StatKey) (st : GameState) : Bool × GameState :=
  let cost := st.upgradeCosts.get upgradeType
  if (cost : ℚ) ≤ st.resources.linesOfCode then
    (true,
      { st with
          resources := { st.resources with linesOfCode := st.resources.linesOfCode - (cost : ℚ) }
          stats := st.stats.set upgradeType
            (st.stats.get upgradeType + if upgradeType = StatKey.handSpeed then 1 else 2)
          upgradeCosts := st.upgradeCosts.set upgradeType
            (Int.floor ((cost : ℚ) * (3/2))) })
  else (false, st)

/-- The stimulus kinds of `GameStateManager.onEditorInteraction`, with their
random draws made explicit: `lucky` is `Math.random() < 0.1` for the keystroke
bonus, and `r` is `Math.floor(Math.random() * 10)` for the file-save bonus. -/
inductive Interaction where
  | keystroke (lucky : Bool)
  | fileOpen
  | fileSave (r : Fin 10)

/-- `GameStateManager.onEditorInteraction`. -/
def onEditorInteraction : Interaction → GameState → GameState
  | .keystroke lucky, st =>
      let st := { st with statistics :=
        { st.statistics with keystrokes := st.statistics.keystrokes + 1 } }
      if lucky then
        let bonus : ℚ := 1
        let bonus : ℚ :=
          if st.equipment.keyboard.owned then
            bonus * (1 + (st.equipment.keyboard.level : ℚ) * (2/10))
          else bonus
        { st with resources :=
          { st.resources with linesOfCode := st.resources.linesOfCode + bonus } }
      else st
  | .fileOpen, st =>
      { st with statistics :=
        { st.statistics with filesOpened := st.statistics.filesOpened + 1 } }
  | .fileSave r, st =>
      let st := { st with statistics :=
        { st.statistics with filesSaved := st.statistics.filesSaved + 1 } }
      let saveBonus : Int := 5 + (r.val : Int)
      let st := { st with resources :=
        { st.resources with linesOfCode := st.resources.linesOfCode + (saveBonus : ℚ) } }
      { st with character :=
        { st.character with experience := st.character.experience + 2 } }

/-- `GameStateManager.updateGameState`, the once-per-second tick: accrual,
combat resolution, conditional spawn, level-up check.  `roll` stands for the
spawn draw `Math.random() < 0.1` and `choice` for the archetype draw inside
`spawnRandomBug`.  The autosave at the end of the source method persists the
state but does not change it; the persisted blob is `updateGameStateSaved`. -/
def updateGameState (roll : Bool) (choice : Fin 5) (st : GameState) : GameState :=
  let locPerSecond := calculateLocPerSecond st
  let st := { st with
      resources := { st.resources with linesOfCode := st.resources.linesOfCode + locPerSecond }
      statistics := { st.statistics with
        totalLinesGenerated := st.statistics.totalLinesGenerated + locPerSecond } }
  let st := { st with statistics :=
    { st.statistics with totalPlayTime := st.statistics.totalPlayTime + 1 } }
  let st := processBattle st
  let st := if !st.battle.isInBattle && roll then spawnRandomBug choice st else st
  checkLevelUp st

/-- The blob the tick's trailing `if (settings.autoSave) saveGameState()`
persists: the state as it stands at the end of the tick, or nothing when
autosave is off. -/
def updateGameStateSaved (roll : Bool) (choice : Fin 5) (st : GameState) : Option GameState :=
  let st := updateGameState roll choice st
  if st.settings.autoSave then some st else none

/-- `GameStateManager.resetGame` (its in-memory effect). -/
def resetGame (_st : GameState) : GameState :=
  createDefaultGameState

/-! ### Save-schema migration (`GameStateManager.loadGameState`)

A persisted blob may predate the renaming of `computingPower`/`attack`/`defense`
to `handSpeed`/`algorithm`/`iteration`.  Each block is modelled with one
`Option Int` per key, `none` standing for a key that is absent
(`undefined`); the blocks themselves are optional, mirroring the source's
`if (savedState.stats)`, `if (savedState.upgradeCosts)` and
`if (savedState.battle?.currentBug)` guards. -/

/-- The persisted `stats` block, current and deprecated keys together. -/
structure StatsBlob where
  handSpeed : Option Int
  algorithm : Option Int
  iteration : Option Int
  computingPower : Option Int
  attack : Option Int
  defense : Option Int
  deriving DecidableEq

/-- The persisted `upgradeCosts` block, current and deprecated keys together. -/
structure CostsBlob where
  handSpeed : Option Int
  algorithm : Option Int
  iteration : Option Int
  computingPower : Option Int
  attack : Option Int
  defense : Option Int
  deriving DecidableEq

/-- The persisted `battle.currentBug` block, current and deprecated keys
together (only the migrated keys are modelled; the others pass through). -/
structure BugBlob where
  algorithm : Option Int
  iteration : Option Int
  attack : Option Int
  defense : Option Int
  deriving DecidableEq

/-- A persisted save blob: the three blocks the migration inspects. -/
structure SaveBlob where
  stats : Option StatsBlob
  upgradeCosts : Option CostsBlob
  currentBug : Option BugBlob
  deriving DecidableEq

/-- `if (savedState.stats.computingPower !== undefined) { handSpeed := it; delete it }`. -/
def renameComputingPower (s : StatsBlob) : StatsBlob :=
  match s.computingPower with
  | some v => { s with handSpeed := some v, computingPower := none }
  | none => s

/-- `if (savedState.stats.attack !== undefined) { algorithm := it; delete it }`. -/
def renameAttack (s : StatsBlob) : StatsBlob :=
  match s.attack with
  | some v => { s with algorithm := some v, attack := none }
  | none => s

/-- `if (savedState.stats.defense !== undefined) { iteration := it; delete it }`. -/
def renameDefense (s : StatsBlob) : StatsBlob :=
  match s.defense with
  | some v => { s with iteration := some v, defense := none }
  | none => s

/-- The stat-block migration, in the source's order. -/
def migrateStats (s : StatsBlob) : StatsBlob :=
  renameDefense (renameAttack (renameComputingPower s))

/-- `if (savedState.upgradeCosts.computingPower !== undefined) ...`. -/
def renameCostComputingPower (c : CostsBlob) : CostsBlob :=
  match c.computingPower with
  | some v => { c with handSpeed := some v, computingPower := none }
  | none => c

/-- `if (savedState.upgradeCosts.attack !== undefined) ...`. -/
def renameCostAttack (c : CostsBlob) : CostsBlob :=
  match c.attack with
  | some v => { c with algorithm := some v, attack := none }
  | none => c

/-- `if (savedState.upgradeCosts.defense !== undefined) ...`. -/
def renameCostDefense (c : CostsBlob) : CostsBlob :=
  match c.defense with
  | some v => { c with iteration := some v, defense := none }
  | none => c

/-- The upgrade-cost-block migration, in the source's order. -/
def migrateCosts (c : CostsBlob) : CostsBlob :=
  renameCostDefense (renameCostAttack (renameCostComputingPower c))

/-- `if (bug.attack !== undefined) { bug.algorithm := it; delete it }`. -/
def renameBugAttack (g : BugBlob) : BugBlob :=
  match g.attack with
  | some v => { g with algorithm := some v, attack := none }
  | none => g

/-- `if (bug.defense !== undefined) { bug.iteration := it; delete it }`. -/
def renameBugDefense (g : BugBlob) : BugBlob :=
  match g.defense with
  | some v => { g with iteration := some v, defense := none }
  | none => g

/-- The active-encounter-block migration, in the source's order. -/
def migrateBug (g : BugBlob) : BugBlob :=
  renameBugDefense (renameBugAttack g)

/-- The data migration `GameStateManager.loadGameState` applies to a present
blob: each of the three blocks is migrated when present. -/
def migrateSave (b : SaveBlob) : SaveBlob :=
  { stats := b.stats.map migrateStats
    upgradeCosts := b.upgradeCosts.map migrateCosts
    currentBug := b.currentBug.map migrateBug }

/-- No deprecated key is present in the stats block. -/
def StatsBlob.clean (s : StatsBlob) : Bool :=
  s.computingPower.isNone && s.attack.isNone && s.defense.isNone

/-- No deprecated key is present in the costs block. -/
def CostsBlob.clean (c : CostsBlob) : Bool :=
  c.computingPower.isNone && c.attack.isNone && c.defense.isNone

/-- No deprecated key is present in the bug block. -/
def BugBlob.clean (g : BugBlob) : Bool :=
  g.attack.isNone && g.defense.isNone

/-- The blob is already in current schema form: no deprecated key anywhere. -/
def SaveBlob.clean (b : SaveBlob) : Bool :=
  b.stats.all StatsBlob.clean && b.upgradeCosts.all CostsBlob.clean
    && b.currentBug.all BugBlob.clean

/-! ### Tick phases

The spec describes the tick as a fixed pipeline of phases.  The phases below
name the corresponding fragments of `updateGameState`; `specTick` composes
them in the spec's stated order and is compared against the source translation
in the refinement theorem. -/

/-- The accrual fragment of `updateGameState`: add `calculateLocPerSecond` to
the continuous currency and the lifetime counter, advance play time. -/
def accrueStep (st : GameState) : GameState :=
  let locPerSecond := calculateLocPerSecond st
  let st := { st with
      resources := { st.resources with linesOfCode := st.resources.linesOfCode + locPerSecond }
      statistics := { st.statistics with
        totalLinesGenerated := st.statistics.totalLinesGenerated + locPerSecond } }
  { st with statistics :=
    { st.statistics with totalPlayTime := st.statistics.totalPlayTime + 1 } }

/-- The spawn-check fragment of `updateGameState`:
`if (!battle.isInBattle && roll) spawnRandomBug()`. -/
def spawnCheck (roll : Bool) (choice : Fin 5) (st : GameState) : GameState :=
  if !st.battle.isInBattle && roll then spawnRandomBug choice st else st

/-- Follows the spec's words (§4.4): run accrual, then combat resolution, then
the spawn check, then the level-up check, in that fixed order, and finally
persist the resulting state when autosave is enabled. -/
def specTick (roll : Bool) (choice : Fin 5) (st : GameState) : GameState × Option GameState :=
  let s1 := accrueStep st
  let s2 := processBattle s1
  let s3 := spawnCheck roll choice s2
  let s4 := checkLevelUp s3
  (s4, if s4.settings.autoSave then some s4 else none)

/-! ### Scenario states -/

/-- Experience grant, as the reward and file-save code paths perform it
(`character.experience += n`). -/
def grantExperience (n : Int) (st : GameState) : GameState :=
  { st with character :=
    { st.character with experience := st.character.experience + n } }

/-- Default state with a large experience grant already applied: enough for
two level-ups in one `checkLevelUp` call. -/
def multiGrantState : GameState :=
  grantExperience 250 createDefaultGameState

/-- Default state with enough continuous currency for several purchases. -/
def richState : GameState :=
  { createDefaultGameState with resources :=
    { createDefaultGameState.resources with linesOfCode := 1000 } }

/-- The spec's level-up scenario start: experience 95, threshold 100. -/
def scenarioLevelState : GameState :=
  { createDefaultGameState with character :=
    { createDefaultGameState.character with experience := 95 } }

/-- An encounter about to be defeated: health 4, defense 1, against the
default offense stat 5 (damage 4). -/
def scenarioBug : Bug where
  name := "空指针异常怪"
  type := .nullPointerException
  health := 4
  maxHealth := 15
  algorithm := 7
  iteration := 1
  reward := { linesOfCode := 10, bugFragments := 1, experience := 5 }

/-- Default state fighting `scenarioBug`. -/
def scenarioBattleState : GameState :=
  { createDefaultGameState with battle := { currentBug := some scenarioBug, isInBattle := true } }

/-- A tough encounter (health 100, defense 1) that survives the next hit. -/
def toughBug : Bug where
  name := "死循环魔"
  type := .infiniteLoop
  health := 100
  maxHealth := 100
  algorithm := 7
  iteration := 1
  reward := { linesOfCode := 10, bugFragments := 1, experience := 5 }

/-- Default state fighting `toughBug`. -/
def toughBattleState : GameState :=
  { createDefaultGameState with battle := { currentBug := some toughBug, isInBattle := true } }

/-! ### Helper lemmas -/

/-- One loop iteration touches only `character` and `stats`. -/
theorem levelUpStep_frame (st : GameState) :
    (levelUpStep st).battle = st.battle ∧ (levelUpStep st).resources = st.resources ∧
    (levelUpStep st).statistics = st.statistics ∧ (levelUpStep st).settings = st.settings ∧
    (levelUpStep st).upgradeCosts = st.upgradeCosts ∧ (levelUpStep st).equipment = st.equipment :=
  ⟨rfl, rfl, rfl, rfl, rfl, rfl⟩

/-- The level-up loop touches only `character` and `stats`. -/
theorem checkLevelUpGo_frame (fuel : Nat) (st : GameState) :
    (checkLevelUpGo fuel st).battle = st.battle ∧
    (checkLevelUpGo fuel st).resources = st.resources ∧
    (checkLevelUpGo fuel st).statistics = st.statistics ∧
    (checkLevelUpGo fuel st).settings = st.settings := by
  induction fuel generalizing st with
  | zero => exact ⟨rfl, rfl, rfl, rfl⟩
  | succ n ih =>
    rw [checkLevelUpGo]
    split
    · exact ih (levelUpStep st)
    · exact ⟨rfl, rfl, rfl, rfl⟩

/-- `checkLevelUp` touches only `character` and `stats`. -/
theorem checkLevelUp_frame (st : GameState) :
    (checkLevelUp st).battle = st.battle ∧
    (checkLevelUp st).resources = st.resources ∧
    (checkLevelUp st).statistics = st.statistics ∧
    (checkLevelUp st).settings = st.settings :=
  checkLevelUpGo_frame _ st

/-- Postcondition of the level-up loop: with a positive threshold, a
non-negative level, and enough fuel, the returned experience lies strictly
below the returned threshold, and the level never decreases. -/
theorem checkLevelUpGo_post (fuel : Nat) :
    ∀ st : GameState, st.character.experience.toNat < fuel →
      0 < st.character.experienceToNext → 0 ≤ st.character.level →
      (checkLevelUpGo fuel st).character.experience
          < (checkLevelUpGo fuel st).character.experienceToNext
        ∧ st.character.level ≤ (checkLevelUpGo fuel st).character.level := by
  induction fuel with
  | zero => intro st hf; omega
  | succ n ih =>
    intro st hf ht hl
    rw [checkLevelUpGo]
    split
    · rename_i hge
      have hexp : (levelUpStep st).character.experience
          = st.character.experience - st.character.experienceToNext := rfl
      have hnext : (levelUpStep st).character.experienceToNext
          = 100 + (st.character.level + 1 - 1) * 50 := rfl
      have hlev : (levelUpStep st).character.level = st.character.level + 1 := rfl
      have h1 : (levelUpStep st).character.experience.toNat < n := by
        rw [hexp]; omega
      have h2 : 0 < (levelUpStep st).character.experienceToNext := by
        rw [hnext]; omega
      have h3 : 0 ≤ (levelUpStep st).character.level := by
        rw [hlev]; omega
      have := ih (levelUpStep st) h1 h2 h3
      exact ⟨this.1, by rw [hlev] at this; omega⟩
    · rename_i hlt
      exact ⟨by omega, le_refl _⟩

/-- C1: for every state whose threshold is positive and stays positive under
recomputation (the recomputed thresholds `100 + (level-1)*50` are all positive
exactly when the level is non-negative), `checkLevelUp` returns with
`experience < experienceToNext`; and, the loop granting one level per
threshold crossed, a single large grant can yield several levels in one call
(two here). -/
theorem claim1_checkLevelUp_renormalizes :
    (∀ st : GameState, 0 < st.character.experienceToNext → 0 ≤ st.character.level →
        (checkLevelUp st).character.experience < (checkLevelUp st).character.experienceToNext)
    ∧ (checkLevelUp multiGrantState).character.level = multiGrantState.character.level + 2 := by
  constructor
  · intro st ht hl
    exact (checkLevelUpGo_post _ st (by omega) ht hl).1
  · decide

/-- Witness for C1 at a concrete state (a 250-experience grant on the default
state). -/
theorem claim1_witness :
    (checkLevelUp multiGrantState).character.experience
      < (checkLevelUp multiGrantState).character.experienceToNext :=
  claim1_checkLevelUp_renormalizes.1 multiGrantState (by decide) (by decide)

/-- C5 fails on the code: from experience 95 and threshold 100, a 150
experience grant followed by `checkLevelUp` leaves experience 145, not 45
(245 - 100 = 145 < 150, so the loop stops after one level). -/
theorem claim5_counterexample :
    ¬((checkLevelUp (grantExperience 150 scenarioLevelState)).character.level
          = scenarioLevelState.character.level + 1
      ∧ (checkLevelUp (grantExperience 150 scenarioLevelState)).character.experience = 45
      ∧ (checkLevelUp (grantExperience 150 scenarioLevelState)).character.experienceToNext
          = 150) := by
  decide

/-- C5 amended: the scenario yields exactly one level, resulting experience
145 and new threshold 150. -/
theorem claim5_amended :
    (checkLevelUp (grantExperience 150 scenarioLevelState)).character.level
        = scenarioLevelState.character.level + 1
    ∧ (checkLevelUp (grantExperience 150 scenarioLevelState)).character.experience = 145
    ∧ (checkLevelUp (grantExperience 150 scenarioLevelState)).character.experienceToNext
        = 150 := by
  decide

/-- Reading a stat just after setting it. -/
theorem stats_get_set (s : Stats) (k : StatKey) (v : Int) : (s.set k v).get k = v := by
  cases k <;> rfl

/-- Reading a cost just after setting it. -/
theorem upgradeCosts_get_set (c : UpgradeCosts) (k : StatKey) (v : Int) :
    (c.set k v).get k = v := by
  cases k <;> rfl

/-- C2: a purchase succeeds exactly when the continuous currency covers the
stat's current cost; success debits exactly the cost (leaving the currency
non-negative), bumps the stat by +1 for `handSpeed` and +2 otherwise, and
floors 1.5 times the cost into the new cost; failure returns the state
byte-for-byte unchanged. -/
theorem claim2_buyUpgrade_spec (st : GameState) (k : StatKey) :
    ((buyUpgrade k st).1 = true ↔ (st.upgradeCosts.get k : ℚ) ≤ st.resources.linesOfCode)
    ∧ ((buyUpgrade k st).1 = true →
        (buyUpgrade k st).2.resources.linesOfCode
            = st.resources.linesOfCode - (st.upgradeCosts.get k : ℚ)
        ∧ 0 ≤ (buyUpgrade k st).2.resources.linesOfCode
        ∧ (buyUpgrade k st).2.stats.get k
            = st.stats.get k + (if k = StatKey.handSpeed then 1 else 2)
        ∧ (buyUpgrade k st).2.upgradeCosts.get k
            = Int.floor ((st.upgradeCosts.get k : ℚ) * (3/2)))
    ∧ ((buyUpgrade k st).1 = false → (buyUpgrade k st).2 = st) := by
  by_cases h : (st.upgradeCosts.get k : ℚ) ≤ st.resources.linesOfCode
  · refine ⟨by simp [buyUpgrade, h], fun _ => ?_, by simp [buyUpgrade, h]⟩
    refine ⟨by simp [buyUpgrade, h], ?_, ?_, ?_⟩
    · simp only [buyUpgrade, if_pos h]
      exact sub_nonneg.mpr h
    · simp [buyUpgrade, h, stats_get_set]
    · simp [buyUpgrade, h, upgradeCosts_get_set]
  · refine ⟨by simp [buyUpgrade, h], fun hs => ?_, by simp [buyUpgrade, h]⟩
    simp [buyUpgrade, h] at hs

/-- Witness for C2: buying `handSpeed` from the default state (currency 0,
cost 50) is rejected and changes nothing. -/
theorem claim2_witness :
    (buyUpgrade StatKey.handSpeed createDefaultGameState).2 = createDefaultGameState :=
  (claim2_buyUpgrade_spec createDefaultGameState StatKey.handSpeed).2.2
    (by norm_num [buyUpgrade, createDefaultGameState, UpgradeCosts.get])

/-- A purchase succeeds exactly when the currency covers the cost. -/
theorem buyUpgrade_success_iff (k : StatKey) (st : GameState) :
    (buyUpgrade k st).1 = true ↔ (st.upgradeCosts.get k : ℚ) ≤ st.resources.linesOfCode := by
  by_cases h : (st.upgradeCosts.get k : ℚ) ≤ st.resources.linesOfCode <;>
    simp [buyUpgrade, h]

/-- The cost-scaling `Math.floor(cost * 1.5)` applied to a stat's cost on each
successful purchase. -/
def costStep (c : Int) : Int := Int.floor ((c : ℚ) * (3/2))

/-- A successful purchase debits exactly the cost. -/
theorem buyUpgrade_loc_of_success (k : StatKey) (st : GameState)
    (h : (buyUpgrade k st).1 = true) :
    (buyUpgrade k st).2.resources.linesOfCode
      = st.resources.linesOfCode - (st.upgradeCosts.get k : ℚ) := by
  have hc := (buyUpgrade_success_iff k st).mp h
  simp [buyUpgrade, hc]

/-- A successful purchase floors 1.5 times the stat's cost into the new cost. -/
theorem buyUpgrade_cost_of_success (k : StatKey) (st : GameState)
    (h : (buyUpgrade k st).1 = true) :
    (buyUpgrade k st).2.upgradeCosts.get k = costStep (st.upgradeCosts.get k) := by
  have hc := (buyUpgrade_success_iff k st).mp h
  simp [buyUpgrade, hc, upgradeCosts_get_set, costStep]

/-- `n` consecutive `buyUpgrade` calls for the same stat. -/
def buyRepeat (k : StatKey) : Nat → GameState → GameState
  | 0, st => st
  | n + 1, st => (buyUpgrade k (buyRepeat k n st)).2

/-- Every one of the first `n` purchases of stat `k` from `st` succeeds. -/
def allSucceed (k : StatKey) (n : Nat) (st : GameState) : Prop :=
  ∀ i, i < n → (buyUpgrade k (buyRepeat k i st)).1 = true

/-- Four `handSpeed` purchases from `richState` all succeed and leave the cost
at 252: the chain is 50 → 75 → 112 → 168 → 252, flooring at every step. -/
theorem richState_handSpeed_chain :
    allSucceed StatKey.handSpeed 4 richState
    ∧ (buyRepeat StatKey.handSpeed 4 richState).upgradeCosts.get StatKey.handSpeed = 252 := by
  have c0 : (buyRepeat StatKey.handSpeed 0 richState).upgradeCosts.get StatKey.handSpeed
      = 50 := rfl
  have l0 : (buyRepeat StatKey.handSpeed 0 richState).resources.linesOfCode = 1000 := rfl
  have s0 : (buyUpgrade StatKey.handSpeed (buyRepeat StatKey.handSpeed 0 richState)).1
      = true := by
    rw [buyUpgrade_success_iff, c0, l0]; norm_num
  have c1 : (buyRepeat StatKey.handSpeed 1 richState).upgradeCosts.get StatKey.handSpeed
      = 75 := by
    have h := buyUpgrade_cost_of_success _ _ s0
    rw [c0] at h
    exact h.trans (by norm_num [costStep])
  have l1 : (buyRepeat StatKey.handSpeed 1 richState).resources.linesOfCode = 950 := by
    have h := buyUpgrade_loc_of_success _ _ s0
    rw [c0, l0] at h
    exact h.trans (by norm_num)
  have s1 : (buyUpgrade StatKey.handSpeed (buyRepeat StatKey.handSpeed 1 richState)).1
      = true := by
    rw [buyUpgrade_success_iff, c1, l1]; norm_num
  have c2 : (buyRepeat StatKey.handSpeed 2 richState).upgradeCosts.get StatKey.handSpeed
      = 112 := by
    have h := buyUpgrade_cost_of_success _ _ s1
    rw [c1] at h
    exact h.trans (by norm_num [costStep])
  have l2 : (buyRepeat StatKey.handSpeed 2 richState).resources.linesOfCode = 875 := by
    have h := buyUpgrade_loc_of_success _ _ s1
    rw [c1, l1] at h
    exact h.trans (by norm_num)
  have s2 : (buyUpgrade StatKey.handSpeed (buyRepeat StatKey.handSpeed 2 richState)).1
      = true := by
    rw [buyUpgrade_success_iff, c2, l2]; norm_num
  have c3 : (buyRepeat StatKey.handSpeed 3 richState).upgradeCosts.get StatKey.handSpeed
      = 168 := by
    have h := buyUpgrade_cost_of_success _ _ s2
    rw [c2] at h
    exact h.trans (by norm_num [costStep])
  have l3 : (buyRepeat StatKey.handSpeed 3 richState).resources.linesOfCode = 763 := by
    have h := buyUpgrade_loc_of_success _ _ s2
    rw [c2, l2] at h
    exact h.trans (by norm_num)
  have s3 : (buyUpgrade StatKey.handSpeed (buyRepeat StatKey.handSpeed 3 richState)).1
      = true := by
    rw [buyUpgrade_success_iff, c3, l3]; norm_num
  have c4 : (buyRepeat StatKey.handSpeed 4 richState).upgradeCosts.get StatKey.handSpeed
      = 252 := by
    have h := buyUpgrade_cost_of_success _ _ s3
    rw [c3] at h
    exact h.trans (by norm_num [costStep])
  refine ⟨?_, c4⟩
  intro i hi
  interval_cases i
  · exact s0
  · exact s1
  · exact s2
  · exact s3

/-- C3 fails on the code: four successful `handSpeed` purchases (from the
default state given 1000 currency) leave the cost at 252, while the claimed
closed form gives `Int.floor (50 * 1.5^4) = 253` — the code floors at every
step, so the flooring losses compound. -/
theorem claim3_counterexample :
    allSucceed StatKey.handSpeed 4 richState
    ∧ (buyRepeat StatKey.handSpeed 4 richState).upgradeCosts.get StatKey.handSpeed
        ≠ Int.floor ((richState.upgradeCosts.get StatKey.handSpeed : ℚ) * (3/2) ^ 4) := by
  refine ⟨richState_handSpeed_chain.1, ?_⟩
  rw [richState_handSpeed_chain.2]
  have h : richState.upgradeCosts.get StatKey.handSpeed = 50 := rfl
  rw [h]
  norm_num

/-- C3 amended: after `n` successful purchases of the same stat, that stat's
cost equals the `n`-fold iterate of `cost ↦ Int.floor (cost * 1.5)` on its
starting cost (50/30/40 in the default state); the closed form
`Int.floor (cost * 1.5 ^ n)` disagrees from `n = 4` on. -/
theorem claim3_amended (k : StatKey) (n : Nat) (st : GameState) (h : allSucceed k n st) :
    (buyRepeat k n st).upgradeCosts.get k = costStep^[n] (st.upgradeCosts.get k) := by
  induction n with
  | zero => rfl
  | succ m ih =>
    have hs : (buyUpgrade k (buyRepeat k m st)).1 = true := h m (Nat.lt_succ_self m)
    have hc := buyUpgrade_cost_of_success k (buyRepeat k m st) hs
    rw [Function.iterate_succ_apply']
    rw [show buyRepeat k (m + 1) st = (buyUpgrade k (buyRepeat k m st)).2 from rfl, hc,
      ih (fun i hi => h i (Nat.lt_succ_of_lt hi))]

/-- Witness for C3's amended claim at four `handSpeed` purchases from
`richState`. -/
theorem claim3_witness :
    (buyRepeat StatKey.handSpeed 4 richState).upgradeCosts.get StatKey.handSpeed
      = costStep^[4] (richState.upgradeCosts.get StatKey.handSpeed) :=
  claim3_amended StatKey.handSpeed 4 richState richState_handSpeed_chain.1

/-- C4: with an active encounter, one combat step deals
`max 1 (offense - encounterDefense)` damage; if that leaves health positive
the damaged bug stays in the slot, and otherwise — within the same step — the
reward bundle is granted (continuous currency, discrete currency with the
defense-stat bonus, experience, defeated counter) and the slot is cleared. -/
theorem claim4_processBattle_resolution (st : GameState) (bug : Bug)
    (hb : st.battle.isInBattle = true) (hc : st.battle.currentBug = some bug) :
    (0 < bug.health - max 1 (st.stats.algorithm - bug.iteration) →
        (processBattle st).battle.currentBug
            = some { bug with health := bug.health - max 1 (st.stats.algorithm - bug.iteration) }
        ∧ (processBattle st).battle.isInBattle = true)
    ∧ (bug.health - max 1 (st.stats.algorithm - bug.iteration) ≤ 0 →
        (processBattle st).resources.linesOfCode
            = st.resources.linesOfCode + (bug.reward.linesOfCode : ℚ)
        ∧ (processBattle st).resources.bugFragments
            = st.resources.bugFragments + bug.reward.bugFragments
              + Int.floor (((bug.reward.bugFragments * st.stats.iteration : Int) : ℚ) * (1/10))
        ∧ (processBattle st).character.experience
            = st.character.experience + bug.reward.experience
        ∧ (processBattle st).statistics.totalBugsDefeated
            = st.statistics.totalBugsDefeated + 1
        ∧ (processBattle st).battle.currentBug = none
        ∧ (processBattle st).battle.isInBattle = false) := by
  simp only [processBattle, hb, hc]
  constructor
  · intro hpos
    rw [if_neg (by omega : ¬ bug.health - max 1 (st.stats.algorithm - bug.iteration) ≤ 0)]
    exact ⟨rfl, rfl⟩
  · intro hle
    rw [if_pos hle]
    refine ⟨rfl, ?_, rfl, rfl, rfl, rfl⟩
    simp [defeatBug]
    ring

/-- Witness for C4 at the spec's scenario: health 4, defense 1 against
offense 5 — defeated within the same step, slot emptied. -/
theorem claim4_witness :
    (processBattle scenarioBattleState).battle.currentBug = none
    ∧ (processBattle scenarioBattleState).battle.isInBattle = false :=
  ⟨((claim4_processBattle_resolution scenarioBattleState scenarioBug rfl rfl).2
      (by decide)).2.2.2.2.1,
   ((claim4_processBattle_resolution scenarioBattleState scenarioBug rfl rfl).2
      (by decide)).2.2.2.2.2⟩

/-- The source tick is definitionally the phase pipeline. -/
theorem tick_phases (roll : Bool) (choice : Fin 5) (st : GameState) :
    updateGameState roll choice st
      = checkLevelUp (spawnCheck roll choice (processBattle (accrueStep st))) := rfl

/-- The spawn check never touches `resources`. -/
theorem spawnCheck_resources (roll : Bool) (choice : Fin 5) (st : GameState) :
    (spawnCheck roll choice st).resources = st.resources := by
  unfold spawnCheck
  split <;> rfl

/-- The spawn check never touches `statistics`. -/
theorem spawnCheck_statistics (roll : Bool) (choice : Fin 5) (st : GameState) :
    (spawnCheck roll choice st).statistics = st.statistics := by
  unfold spawnCheck
  split <;> rfl

/-- C9: the tick is exactly the spec's pipeline — accrual, then combat
resolution, then the spawn check, then the level-up check — and the blob the
conditional autosave persists is the state after the level-up check, so a
kill's experience is already converted into levels in the persisted blob. -/
theorem claim9_tick_phase_order (roll : Bool) (choice : Fin 5) (st : GameState) :
    (updateGameState roll choice st, updateGameStateSaved roll choice st)
      = specTick roll choice st := rfl

/-- C8: the accrual step adds `calculateLocPerSecond` — the production stat
times `1 + ownedLevel/10` when the IDE-extension slot is owned, the bare
production stat otherwise — to both the continuous currency and the lifetime
counter and advances play time by one; from the default state (production 1,
nothing owned) a full tick increases currency, lifetime total and play time
by exactly 1, whatever the spawn rolls. -/
theorem claim8_accrual_spec :
    (∀ st : GameState,
        (accrueStep st).resources.linesOfCode
            = st.resources.linesOfCode + calculateLocPerSecond st
        ∧ (accrueStep st).statistics.totalLinesGenerated
            = st.statistics.totalLinesGenerated + calculateLocPerSecond st
        ∧ (accrueStep st).statistics.totalPlayTime = st.statistics.totalPlayTime + 1
        ∧ calculateLocPerSecond st
            = (if st.equipment.ideExtension.owned then
                (st.stats.handSpeed : ℚ) * (1 + (st.equipment.ideExtension.level : ℚ) * (1/10))
              else (st.stats.handSpeed : ℚ)))
    ∧ (∀ (roll : Bool) (choice : Fin 5),
        (updateGameState roll choice createDefaultGameState).resources.linesOfCode = 1
        ∧ (updateGameState roll choice createDefaultGameState).statistics.totalLinesGenerated
            = 1
        ∧ (updateGameState roll choice createDefaultGameState).statistics.totalPlayTime
            = 1) := by
  refine ⟨fun st => ⟨rfl, rfl, rfl, rfl⟩, fun roll choice => ?_⟩
  have h1 : (updateGameState roll choice createDefaultGameState).resources
      = (accrueStep createDefaultGameState).resources := by
    rw [tick_phases, (checkLevelUp_frame _).2.1, spawnCheck_resources]
    rfl
  have h2 : (updateGameState roll choice createDefaultGameState).statistics
      = (accrueStep createDefaultGameState).statistics := by
    rw [tick_phases, (checkLevelUp_frame _).2.2.1, spawnCheck_statistics]
    rfl
  refine ⟨?_, ?_, ?_⟩
  · rw [h1]
    norm_num [accrueStep, calculateLocPerSecond, createDefaultGameState]
  · rw [h2]
    norm_num [accrueStep, calculateLocPerSecond, createDefaultGameState]
  · rw [h2]
    norm_num [accrueStep, createDefaultGameState]

/-- 0 or 1 active encounters, by the shape of the single slot. -/
def activeEncounters (st : GameState) : Nat :=
  match st.battle.currentBug with
  | some _ => 1
  | none => 0

/-- A sequence of ticks, each with its two random draws. -/
def ticks : List (Bool × Fin 5) → GameState → GameState
  | [], st => st
  | r :: rest, st => ticks rest (updateGameState r.1 r.2 st)

/-- C6: after any sequence of ticks from the default state at most one
encounter is active; and the spawn roll is consulted only when no encounter
is active — whenever the combat phase leaves the battle running, the tick's
final battle state is exactly the combat phase's, for every roll. -/
theorem claim6_single_encounter :
    (∀ seq : List (Bool × Fin 5), activeEncounters (ticks seq createDefaultGameState) ≤ 1)
    ∧ (∀ (st : GameState) (roll : Bool) (choice : Fin 5),
        (processBattle (accrueStep st)).battle.isInBattle = true →
        (updateGameState roll choice st).battle
          = (processBattle (accrueStep st)).battle) := by
  constructor
  · intro seq
    cases h : (ticks seq createDefaultGameState).battle.currentBug <;>
      simp [activeEncounters, h]
  · intro st roll choice h
    rw [tick_phases, (checkLevelUp_frame _).1]
    simp [spawnCheck, h]

/-- Witness for C6: a surviving encounter (health 100) is not replaced by the
spawn phase even when the spawn roll fires. -/
theorem claim6_witness :
    (updateGameState true 0 toughBattleState).battle
      = (processBattle (accrueStep toughBattleState)).battle :=
  claim6_single_encounter.2 toughBattleState true 0 (by decide)

/-- Migrating a stats block twice is the same as migrating it once. -/
theorem migrateStats_idem (s : StatsBlob) : migrateStats (migrateStats s) = migrateStats s := by
  obtain ⟨a, b, c, d, e, f⟩ := s
  cases d <;> cases e <;> cases f <;> rfl

/-- Migrating a costs block twice is the same as migrating it once. -/
theorem migrateCosts_idem (c : CostsBlob) : migrateCosts (migrateCosts c) = migrateCosts c := by
  obtain ⟨a, b, c, d, e, f⟩ := c
  cases d <;> cases e <;> cases f <;> rfl

/-- Migrating a bug block twice is the same as migrating it once. -/
theorem migrateBug_idem (g : BugBlob) : migrateBug (migrateBug g) = migrateBug g := by
  obtain ⟨a, b, c, d⟩ := g
  cases c <;> cases d <;> rfl

/-- A migrated stats block carries no deprecated key. -/
theorem migrateStats_clean (s : StatsBlob) : (migrateStats s).clean = true := by
  obtain ⟨a, b, c, d, e, f⟩ := s
  cases d <;> cases e <;> cases f <;> rfl

/-- A migrated costs block carries no deprecated key. -/
theorem migrateCosts_clean (c : CostsBlob) : (migrateCosts c).clean = true := by
  obtain ⟨a, b, c, d, e, f⟩ := c
  cases d <;> cases e <;> cases f <;> rfl

/-- A migrated bug block carries no deprecated key. -/
theorem migrateBug_clean (g : BugBlob) : (migrateBug g).clean = true := by
  obtain ⟨a, b, c, d⟩ := g
  cases c <;> cases d <;> rfl

/-- A stats block with no deprecated key is left untouched. -/
theorem migrateStats_of_clean (s : StatsBlob) (h : s.clean = true) : migrateStats s = s := by
  obtain ⟨a, b, c, d, e, f⟩ := s
  cases d <;> cases e <;> cases f <;> first | rfl | simp [StatsBlob.clean] at h

/-- A costs block with no deprecated key is left untouched. -/
theorem migrateCosts_of_clean (c : CostsBlob) (h : c.clean = true) : migrateCosts c = c := by
  obtain ⟨a, b, c, d, e, f⟩ := c
  cases d <;> cases e <;> cases f <;> first | rfl | simp [CostsBlob.clean] at h

/-- A bug block with no deprecated key is left untouched. -/
theorem migrateBug_of_clean (g : BugBlob) (h : g.clean = true) : migrateBug g = g := by
  obtain ⟨a, b, c, d⟩ := g
  cases c <;> cases d <;> first | rfl | simp [BugBlob.clean] at h

/-- C7: the load migration is idempotent (running twice equals running once),
is a no-op on a blob already in current schema form, always leaves zero
deprecated keys, renames each deprecated key that is present (in any subset)
to its current equivalent while discarding the old key, and within each block
the renames can be applied in the reverse order with the same result. -/
theorem claim7_migration :
    (∀ b : SaveBlob, migrateSave (migrateSave b) = migrateSave b)
    ∧ (∀ b : SaveBlob, b.clean = true → migrateSave b = b)
    ∧ (∀ b : SaveBlob, (migrateSave b).clean = true)
    ∧ (∀ (s : StatsBlob) (v : Int), s.computingPower = some v →
        (migrateStats s).handSpeed = some v ∧ (migrateStats s).computingPower = none)
    ∧ (∀ (s : StatsBlob) (v : Int), s.attack = some v →
        (migrateStats s).algorithm = some v ∧ (migrateStats s).attack = none)
    ∧ (∀ (s : StatsBlob) (v : Int), s.defense = some v →
        (migrateStats s).iteration = some v ∧ (migrateStats s).defense = none)
    ∧ (∀ (c : CostsBlob) (v : Int), c.computingPower = some v →
        (migrateCosts c).handSpeed = some v ∧ (migrateCosts c).computingPower = none)
    ∧ (∀ (c : CostsBlob) (v : Int), c.attack = some v →
        (migrateCosts c).algorithm = some v ∧ (migrateCosts c).attack = none)
    ∧ (∀ (c : CostsBlob) (v : Int), c.defense = some v →
        (migrateCosts c).iteration = some v ∧ (migrateCosts c).defense = none)
    ∧ (∀ (g : BugBlob) (v : Int), g.attack = some v →
        (migrateBug g).algorithm = some v ∧ (migrateBug g).attack = none)
    ∧ (∀ (g : BugBlob) (v : Int), g.defense = some v →
        (migrateBug g).iteration = some v ∧ (migrateBug g).defense = none)
    ∧ (∀ s : StatsBlob,
        migrateStats s = renameComputingPower (renameAttack (renameDefense s)))
    ∧ (∀ c : CostsBlob,
        migrateCosts c = renameCostComputingPower (renameCostAttack (renameCostDefense c)))
    ∧ (∀ g : BugBlob, migrateBug g = renameBugAttack (renameBugDefense g)) := by
  refine ⟨?_, ?_, ?_, ?_, ?_, ?_, ?_, ?_, ?_, ?_, ?_, ?_, ?_, ?_⟩
  · intro b
    obtain ⟨os, oc, og⟩ := b
    cases os <;> cases oc <;> cases og <;>
      simp [migrateSave, migrateStats_idem, migrateCosts_idem, migrateBug_idem]
  · intro b h
    obtain ⟨os, oc, og⟩ := b
    cases os <;> cases oc <;> cases og <;>
      simp_all [migrateSave, SaveBlob.clean, migrateStats_of_clean, migrateCosts_of_clean,
        migrateBug_of_clean]
  · intro b
    obtain ⟨os, oc, og⟩ := b
    cases os <;> cases oc <;> cases og <;>
      simp [migrateSave, SaveBlob.clean, migrateStats_clean, migrateCosts_clean,
        migrateBug_clean]
  · intro s v h
    obtain ⟨a, b, c, d, e, f⟩ := s
    subst h
    cases e <;> cases f <;> exact ⟨rfl, rfl⟩
  · intro s v h
    obtain ⟨a, b, c, d, e, f⟩ := s
    subst h
    cases d <;> cases f <;> exact ⟨rfl, rfl⟩
  · intro s v h
    obtain ⟨a, b, c, d, e, f⟩ := s
    subst h
    cases d <;> cases e <;> exact ⟨rfl, rfl⟩
  · intro c v h
    obtain ⟨a, b, c, d, e, f⟩ := c
    subst h
    cases e <;> cases f <;> exact ⟨rfl, rfl⟩
  · intro c v h
    obtain ⟨a, b, c, d, e, f⟩ := c
    subst h
    cases d <;> cases f <;> exact ⟨rfl, rfl⟩
  · intro c v h
    obtain ⟨a, b, c, d, e, f⟩ := c
    subst h
    cases d <;> cases e <;> exact ⟨rfl, rfl⟩
  · intro g v h
    obtain ⟨a, b, c, d⟩ := g
    subst h
    cases d <;> exact ⟨rfl, rfl⟩
  · intro g v h
    obtain ⟨a, b, c, d⟩ := g
    subst h
    cases c <;> exact ⟨rfl, rfl⟩
  · intro s
    obtain ⟨a, b, c, d, e, f⟩ := s
    cases d <;> cases e <;> cases f <;> rfl
  · intro c
    obtain ⟨a, b, c, d, e, f⟩ := c
    cases d <;> cases e <;> cases f <;> rfl
  · intro g
    obtain ⟨a, b, c, d⟩ := g
    cases c <;> cases d <;> rfl

/-- A blob already in current schema form. -/
def cleanSaveBlob : SaveBlob where
  stats := some ⟨some 1, some 5, some 3, none, none, none⟩
  upgradeCosts := some ⟨some 50, some 30, some 40, none, none, none⟩
  currentBug := none

/-- A legacy stats block carrying all three deprecated keys. -/
def legacyStatsBlob : StatsBlob :=
  ⟨none, none, none, some 7, some 9, some 4⟩

/-- Witness for C7: migrating a current-form blob changes nothing, and a
deprecated `computingPower` value lands in `handSpeed`. -/
theorem claim7_witness :
    migrateSave cleanSaveBlob = cleanSaveBlob
    ∧ (migrateStats legacyStatsBlob).handSpeed = some 7 :=
  ⟨claim7_migration.2.1 cleanSaveBlob (by decide),
   (claim7_migration.2.2.2.1 legacyStatsBlob 7 rfl).1⟩

/-- The public mutating operations of the manager, each with its random draws
made explicit. -/
inductive Op where
  | tick (roll : Bool) (choice : Fin 5)
  | buy (k : StatKey)
  | interact (i : Interaction)
  | reset

/-- Apply one public operation. -/
def applyOp : Op → GameState → GameState
  | .tick roll choice, st => updateGameState roll choice st
  | .buy k, st => (buyUpgrade k st).2
  | .interact i, st => onEditorInteraction i st
  | .reset, st => resetGame st

/-- Apply a sequence of public operations. -/
def applyOps (ops : List Op) (st : GameState) : GameState :=
  ops.foldl (fun s o => applyOp o s) st

/-- The in-battle flag agrees with the encounter slot. -/
def battleConsistent (st : GameState) : Prop :=
  st.battle.isInBattle = st.battle.currentBug.isSome

/-- Combat resolution keeps the flag and the slot in agreement. -/
theorem processBattle_consistent (st : GameState) (h : battleConsistent st) :
    battleConsistent (processBattle st) := by
  unfold battleConsistent at h ⊢
  unfold processBattle
  cases hb : st.battle.isInBattle <;> cases hc : st.battle.currentBug <;>
    simp only [hb, hc]
  · rfl
  · rw [hb, hc] at h
    simp at h
  · rw [hb, hc] at h
    simp at h
  · split
    · rfl
    · simp [hb]

/-- The spawn check keeps the flag and the slot in agreement. -/
theorem spawnCheck_consistent (roll : Bool) (choice : Fin 5) (st : GameState)
    (h : battleConsistent st) : battleConsistent (spawnCheck roll choice st) := by
  unfold spawnCheck
  split
  · rfl
  · exact h

/-- A purchase never touches the battle state. -/
theorem buyUpgrade_battle (k : StatKey) (st : GameState) :
    (buyUpgrade k st).2.battle = st.battle := by
  by_cases h : (st.upgradeCosts.get k : ℚ) ≤ st.resources.linesOfCode <;>
    simp [buyUpgrade, h]

/-- An interaction hook never touches the battle state. -/
theorem onEditorInteraction_battle (i : Interaction) (st : GameState) :
    (onEditorInteraction i st).battle = st.battle := by
  cases i with
  | keystroke lucky => cases lucky <;> rfl
  | fileOpen => rfl
  | fileSave r => rfl

/-- A tick keeps the flag and the slot in agreement. -/
theorem updateGameState_consistent (roll : Bool) (choice : Fin 5) (st : GameState)
    (h : battleConsistent st) : battleConsistent (updateGameState roll choice st) := by
  unfold battleConsistent
  rw [tick_phases, (checkLevelUp_frame _).1]
  exact spawnCheck_consistent roll choice _ (processBattle_consistent (accrueStep st) h)

/-- Each public operation keeps the flag and the slot in agreement. -/
theorem applyOp_consistent (o : Op) (st : GameState) (h : battleConsistent st) :
    battleConsistent (applyOp o st) := by
  cases o with
  | tick roll choice => exact updateGameState_consistent roll choice st h
  | buy k =>
    unfold battleConsistent
    rw [applyOp, buyUpgrade_battle]
    exact h
  | interact i =>
    unfold battleConsistent
    rw [applyOp, onEditorInteraction_battle]
    exact h
  | reset => rfl

/-- C10: in every state reachable from the default state by the public
operations (tick, purchase, interaction hooks, reset), `battle.isInBattle`
holds exactly when `battle.currentBug` is non-empty: every operation that
sets or clears one also sets or clears the other. -/
theorem claim10_battle_flag_consistent (ops : List Op) :
    battleConsistent (applyOps ops createDefaultGameState) := by
  have main : ∀ (l : List Op) (st : GameState),
      battleConsistent st → battleConsistent (applyOps l st) := by
    intro l
    induction l with
    | nil => intro st h; exact h
    | cons o rest ih =>
      intro st h
      exact ih (applyOp o st) (applyOp_consistent o st h)
  exact main ops createDefaultGameState rfl
